import Mathlib

/-!
Verification development for the shadi-app API-key management subsystem.

The definitions below are a shallow embedding of the TypeScript source:
  - lib/api-utils.ts        (checkRateLimit, incrementApiKeyUsage, getAuthenticatedUserId)
  - app/api/keys/validate/route.ts          (POST, key validation)
  - app/api/keys/route.ts                   (POST, key creation)
  - app/api/keys/list/route.ts              (GET, owner-scoped listing)
  - the owner-scoped key update/delete route (PUT/DELETE with user_id filter)
  - app/api/github-summarizer/route.ts      (POST, bearer-authenticated summarizer)
  - app/components/ApiKeysCrud.tsx          (generateRandomKeyValue, createApiKey)

The external relational store is modelled as a list of rows; external
collaborators (session-token decoding, GitHub fetches, the summarization
chain) are modelled as explicit oracle parameters so that each endpoint
is a total function of its inputs.
-/

namespace Shadi

/-- Row of the api_keys table. usage and limit are nullable in the schema,
user_id is nullable (rows created before the user_id migration have none). -/
structure ApiKeyRow where
  id : Nat
  userId : Option Nat
  name : String
  envType : String
  key : String
  usage : Option Nat
  limit : Option Nat
  createdAt : Nat
  updatedAt : Nat
  deriving Repr, DecidableEq

/-- The api_keys table. -/
def Store := List ApiKeyRow

/-- Supabase select ... .eq('key', k) .single(): the first row whose key
column equals k, if any. -/
def findRowByKey (s : List ApiKeyRow) (k : String) : Option ApiKeyRow :=
  s.find? (fun r => r.key = k)

/-- Supabase select ... .eq('id', i) .single(). -/
def findRowById (s : List ApiKeyRow) (i : Nat) : Option ApiKeyRow :=
  s.find? (fun r => r.id = i)

/-- Result of checkRateLimit in lib/api-utils.ts: either the usage data or
an error object with an HTTP status. -/
inductive RateLimitResult where
  | ok (isRateLimited : Bool) (usage : Nat) (limit : Option Nat) (keyId : Nat)
  | err (error : String) (status : Nat)
  deriving Repr, DecidableEq

/-- checkRateLimit from lib/api-utils.ts. A key row that is absent gives the
PGRST116 branch (Invalid API key, 401). A null usage is coalesced to 0 by
the source expression data.usage or 0; a null limit means unlimited;
otherwise the key is rate limited exactly when usage >= limit. -/
def checkRateLimit (s : List ApiKeyRow) (apiKey : String) : RateLimitResult :=
  match findRowByKey s apiKey with
  | none => .err "Invalid API key" 401
  | some row =>
    let usage := row.usage.getD 0
    match row.limit with
    | none => .ok false usage none row.id
    | some lim => .ok (decide (usage ≥ lim)) usage (some lim) row.id

/-- Result of incrementApiKeyUsage in lib/api-utils.ts. -/
inductive IncResult where
  | success
  | err (error : String) (status : Nat)
  deriving Repr, DecidableEq

/-- incrementApiKeyUsage from lib/api-utils.ts: read the current usage of
the row with the given id, then write usage+1 back (read-modify-write).
Returns the result together with the updated table. -/
def incrementApiKeyUsage (s : List ApiKeyRow) (keyId : Nat) (now : Nat) :
    IncResult × List ApiKeyRow :=
  match findRowById s keyId with
  | none => (.err "Failed to fetch API key usage" 500, s)
  | some row =>
    let newUsage := row.usage.getD 0 + 1
    (.success,
      s.map (fun r =>
        if r.id = keyId then { r with usage := some newUsage, updatedAt := now } else r))

/-! Character-level string primitives. The JS string operations of the
source (trim, startsWith, slice, split, includes) are embedded over the
character list of a string so that every endpoint is kernel-computable. -/

/-- Whitespace trim on both ends, matching String.prototype.trim. -/
def trimChars (l : List Char) : List Char :=
  ((l.dropWhile Char.isWhitespace).reverse.dropWhile Char.isWhitespace).reverse

/-- Whitespace trim of a string. -/
def strTrim (s : String) : String :=
  String.mk (trimChars s.toList)

/-- Prefix test, matching String.prototype.startsWith. -/
def strStartsWith (s p : String) : Bool :=
  p.toList.isPrefixOf s.toList

/-- Drop of the first n characters, matching String.prototype.substring. -/
def strDropChars (s : String) (n : Nat) : String :=
  String.mk (s.toList.drop n)

/-- Occurrence of sub inside a character list, matching
String.prototype.includes. -/
def listContains (sub : List Char) : List Char → Bool
  | [] => sub.isEmpty
  | x :: xs => sub.isPrefixOf (x :: xs) || listContains sub xs

/-- Substring test on strings. -/
def strContains (s sub : String) : Bool :=
  listContains sub.toList s.toList

/-- Split of a character list on a separator character, matching
String.prototype.split with a one-character separator. -/
def splitOnChar (c : Char) : List Char → List (List Char)
  | [] => [[]]
  | x :: xs =>
    let rest := splitOnChar c xs
    if x = c then [] :: rest
    else
      match rest with
      | [] => [[x]]
      | y :: ys => (x :: y) :: ys

/-- Rejoin of split parts with the separator, matching Array.prototype.join
with a one-character separator. -/
def joinWithChar (c : Char) : List (List Char) → List Char
  | [] => []
  | [x] => x
  | x :: xs => x ++ c :: joinWithChar c xs

/-! Session identity resolution (getAuthenticatedUserId in lib/api-utils.ts). -/

/-- Outcome of next-auth decode on a session token: the call can throw
(wrong secret, malformed token), return null, or return a claims object
whose email and sub fields are each possibly absent. -/
inductive DecodeOutcome where
  | threw
  | noToken
  | token (email : Option String) (sub : Option String)
  deriving Repr, DecidableEq

/-- External collaborators of getAuthenticatedUserId: the configured
signing secret (present or not), the next-auth token decoder, and the
users-table lookup by email (none covers both no-row and store error,
which the source maps to the same null result). -/
structure AuthWorld where
  secretAvailable : Bool
  decode : String → DecodeOutcome
  userByEmail : String → Option Nat

/-- Cookie-header parsing from getAuthenticatedUserId: split on semicolons,
trim, split each part on the equals signs giving the name and the value
parts rejoined with equals; parts with an empty name or no value part are
skipped. -/
def parseCookies (header : String) : List (String × String) :=
  ((splitOnChar ';' header.toList).filterMap (fun c =>
    match splitOnChar '=' (trimChars c) with
    | [] => none
    | [_] => none
    | k :: vs =>
      if k ≠ [] then some (String.mk k, String.mk (joinWithChar '=' vs)) else none))

/-- Last-write-wins lookup, matching assignment into a JS object while
parsing cookies. -/
def cookieLookup (cs : List (String × String)) (k : String) : Option String :=
  ((cs.filter (fun p => p.1 = k)).map (fun p => p.2)).getLast?

/-- JS-truthy chain a or b on possibly-empty strings: an empty string is
falsy and falls through. -/
def firstTruthy (a b : Option String) : Option String :=
  match a with
  | some v =>
    if v ≠ "" then some v
    else match b with
      | some w => if w ≠ "" then some w else none
      | none => none
  | none =>
    match b with
    | some w => if w ≠ "" then some w else none
    | none => none

/-- Session-token extraction from the parsed cookies: the next-auth session
cookie, else its __Secure- variant, empty values being falsy. -/
def sessionTokenOf (header : String) : Option String :=
  firstTruthy
    (cookieLookup (parseCookies header) "next-auth.session-token")
    (cookieLookup (parseCookies header) "__Secure-next-auth.session-token")

/-- Cookie-name scan from getAuthenticatedUserId: some parsed cookie name
contains next-auth or authjs. -/
def hasNextAuthCookie (header : String) : Bool :=
  (parseCookies header).any (fun p => strContains p.1 "next-auth" || strContains p.1 "authjs")

/-- getAuthenticatedUserId from lib/api-utils.ts. Every absence condition
(no cookie header, no next-auth cookie, no configured secret, no session
token, decode failure or throw, missing email claim, no matching user row)
returns none; the whole body is a total function, mirroring the source
try/catch that converts every throw into null. -/
def getAuthenticatedUserId (w : AuthWorld) (cookieHeader : Option String) : Option Nat :=
  let header := cookieHeader.getD ""
  if header = "" then none
  else if ¬ hasNextAuthCookie header then none
  else if ¬ w.secretAvailable then none
  else
    match sessionTokenOf header with
    | none => none
    | some tok =>
      match w.decode tok with
      | .threw => none
      | .noToken => none
      | .token email _sub =>
        match email with
        | none => none
        | some e =>
          if e = "" then none
          else
            match w.userByEmail e with
            | none => none
            | some uid => some uid

/-! HTTP response model: the JSON bodies returned by the routes, with only
the fields the routes actually set. -/

/-- Summary object produced by the summarization chain. -/
structure Summary where
  summary : String
  cool_facts : List String
  deriving Repr, DecidableEq

/-- JSON response of a route: HTTP status plus the body fields the routes
set (absent fields are none). -/
structure HResponse where
  status : Nat
  error : Option String := none
  message : Option String := none
  valid : Option Bool := none
  hint : Option String := none
  summary : Option String := none
  coolFacts : Option (List String) := none
  record : Option ApiKeyRow := none
  success : Option Bool := none
  deriving Repr, DecidableEq

/-! Key validation endpoint (app/api/keys/validate/route.ts). -/

/-- POST of app/api/keys/validate/route.ts. The body is modelled as the key
field of the parsed JSON (none when absent); a missing or empty key is
falsy and yields 400; an unknown key is the PGRST116 single() branch and
yields 200 with valid false; a matching row yields 200 with valid true. -/
def validateKeyPOST (s : List ApiKeyRow) (key : Option String) : HResponse :=
  match key with
  | none => { status := 400, error := some "API key is required", valid := some false }
  | some k =>
    if k = "" then { status := 400, error := some "API key is required", valid := some false }
    else
      match findRowByKey s k with
      | none => { status := 200, valid := some false, message := some "Invalid API key" }
      | some row =>
        { status := 200, valid := some true, message := some "Valid API key", record := some row }

/-! Key creation (app/api/keys/route.ts POST) and the dashboard client
helpers (app/components/ApiKeysCrud.tsx). -/

/-- Alphabet used by generateRandomKeyValue in ApiKeysCrud.tsx. -/
def keyChars : List Char :=
  "ABCDEFGHIJKLMNOPQRSTUVWXYZabcdefghijklmnopqrstuvwxyz0123456789".toList

/-- generateRandomKeyValue from ApiKeysCrud.tsx: an environment prefix
(shadi-dev- or shadi-prod-) followed by 24 characters drawn from the
alphanumeric alphabet. Randomness is modelled by rnd, giving the raw
Math.random draw of each loop iteration as an index reduced mod 62. -/
def generateRandomKeyValue (ty : String) (rnd : Nat → Nat) : String :=
  let prefixStr := if ty = "dev" then "shadi-dev-" else "shadi-prod-"
  prefixStr ++ String.mk ((List.range 24).map (fun i => keyChars.getD (rnd i % keyChars.length) 'A'))

/-- POST of app/api/keys/route.ts: validate required fields and the type
enum, then insert a row with usage 0. The JS expression limit or null maps
a 0 limit to null. A key-column collision is the 23505 unique-violation
branch and yields 409 with no insert; otherwise 201 with the created row. -/
def createKeyPOST (s : List ApiKeyRow) (name ty key : String) (limitField : Option Nat)
    (newId now : Nat) : HResponse × List ApiKeyRow :=
  if name = "" ∨ ty = "" ∨ key = "" then
    ({ status := 400, error := some "Missing required fields: name, type, key" }, s)
  else if ty ≠ "dev" ∧ ty ≠ "prod" then
    ({ status := 400, error := some "Type must be either dev or prod" }, s)
  else if s.any (fun r => r.key = key) then
    ({ status := 409, error := some "An API key with this value already exists" }, s)
  else
    let row : ApiKeyRow :=
      { id := newId, userId := none, name := name, envType := ty, key := key,
        usage := some 0,
        limit := match limitField with
          | none => none
          | some l => if l = 0 then none else some l,
        createdAt := now, updatedAt := now }
    ({ status := 201, record := some row }, s ++ [row])

/-- Outcome of the dashboard createApiKey helper: either the key was
created, or the fetch threw with the error message of the response body. -/
inductive CreateOutcome where
  | created (row : Option ApiKeyRow)
  | failed (msg : String)
  deriving Repr, DecidableEq

/-- createApiKey from ApiKeysCrud.tsx: generate one credential with
generateRandomKeyValue, POST it to /api/keys once, and on a non-ok
response throw with the error field of the body. There is no second
generation attempt and no retry. -/
def clientCreateApiKey (s : List ApiKeyRow) (name ty : String)
    (limitMonthlyUsage : Bool) (limitVal : Nat) (rnd : Nat → Nat)
    (newId now : Nat) : CreateOutcome × List ApiKeyRow :=
  let generatedKey := generateRandomKeyValue ty rnd
  let res := createKeyPOST s name ty generatedKey
    (if limitMonthlyUsage then some limitVal else none) newId now
  if 200 ≤ res.1.status ∧ res.1.status < 300 then (.created res.1.record, res.2)
  else (.failed (res.1.error.getD ("Failed to create API key (" ++ toString res.1.status ++ ")")), res.2)

/-! Owner-scoped key mutation routes (the PUT and DELETE handlers that
filter on user_id, using getAuthenticatedUserId). -/

/-- PUT of the owner-scoped key update route: resolve the requester, check
required fields and the type enum, then update the rows matching both the
key id and the requester user id. An update that matches no row leaves the
table unchanged and yields the conflated 404. -/
def putApiKey (s : List ApiKeyRow) (requester : Option Nat) (keyId : Nat)
    (name ty key : String) (now : Nat) : HResponse × List ApiKeyRow :=
  match requester with
  | none => ({ status := 401, error := some "Unauthorized. Please sign in to update API keys." }, s)
  | some uid =>
    if name = "" ∨ ty = "" ∨ key = "" then
      ({ status := 400, error := some "Missing required fields: name, type, key" }, s)
    else if ty ≠ "dev" ∧ ty ≠ "prod" then
      ({ status := 400, error := some "Type must be either dev or prod" }, s)
    else
      let matched := s.filter (fun r => r.id = keyId ∧ r.userId = some uid)
      match matched with
      | [] =>
        ({ status := 404,
           error := some "API key not found or you do not have permission to update it" }, s)
      | m :: _ =>
        let updated := { m with name := name, envType := ty, key := key, updatedAt := now }
        ({ status := 200, record := some updated },
          s.map (fun r =>
            if r.id = keyId ∧ r.userId = some uid then
              { r with name := name, envType := ty, key := key, updatedAt := now }
            else r))

/-- DELETE of the owner-scoped key delete route: resolve the requester and
delete the rows matching both the key id and the requester user id. A
delete that matches no row leaves the table unchanged and yields the
conflated 404. -/
def deleteApiKey (s : List ApiKeyRow) (requester : Option Nat) (keyId : Nat) :
    HResponse × List ApiKeyRow :=
  match requester with
  | none => ({ status := 401, error := some "Unauthorized. Please sign in to delete API keys." }, s)
  | some uid =>
    let matched := s.filter (fun r => r.id = keyId ∧ r.userId = some uid)
    match matched with
    | [] =>
      ({ status := 404,
         error := some "API key not found or you do not have permission to delete it" }, s)
    | _ :: _ =>
      ({ status := 200, success := some true },
        s.filter (fun r => ¬ (r.id = keyId ∧ r.userId = some uid)))

/-! Owner-scoped listing (app/api/keys/list/route.ts GET). -/

/-- Row ordering of the listing query: newest created_at first. -/
def newerFirst (a b : ApiKeyRow) : Prop := b.createdAt ≤ a.createdAt

instance : DecidableRel newerFirst := fun a b => Nat.decLe b.createdAt a.createdAt

instance : IsTotal ApiKeyRow newerFirst := ⟨fun a b => Nat.le_total b.createdAt a.createdAt⟩

instance : IsTrans ApiKeyRow newerFirst := ⟨fun _ _ _ h1 h2 => Nat.le_trans h2 h1⟩

/-- GET of app/api/keys/list/route.ts: require a resolved session user,
then return the rows whose user_id is that user, ordered by created_at
descending. -/
def listKeysGET (s : List ApiKeyRow) (requester : Option Nat) :
    Except HResponse (List ApiKeyRow) :=
  match requester with
  | none => .error { status := 401, error := some "Unauthorized. Please sign in to access your API keys." }
  | some uid =>
    .ok ((s.filter (fun r => r.userId = some uid)).insertionSort newerFirst)

/-! Summarizer endpoint (app/api/github-summarizer/route.ts). -/

/-- Headers of an inbound summarizer request: the authorization header and
the x-api-key header, each possibly absent. -/
structure ReqHeaders where
  authorization : Option String
  xApiKey : Option String
  deriving Repr, DecidableEq

/-- X-API-Key fallback of getApiKeyFromHeaders: an empty header value is
falsy and ignored. -/
def xApiKeyOf (h : ReqHeaders) : Option String :=
  match h.xApiKey with
  | some x => if x ≠ "" then some (strTrim x) else none
  | none => none

/-- getApiKeyFromHeaders from github-summarizer/route.ts: an authorization
header (Bearer-stripped and trimmed, a bare value also accepted) takes
priority, then the x-api-key header trimmed; an empty header value is
falsy; null when neither is present. -/
def getApiKeyFromHeaders (h : ReqHeaders) : Option String :=
  match h.authorization with
  | some a =>
    if a ≠ "" then
      if strStartsWith a "Bearer " then some (strTrim (strDropChars a 7)) else some (strTrim a)
    else xApiKeyOf h
  | none => xApiKeyOf h

/-- Tail of a GitHub URL after the https://github.com/ host part. -/
def ghUrlTail (s : String) : Option (List Char) :=
  if strStartsWith s "https://github.com/" then some (s.toList.drop 19) else none

/-- Unanchored body-validation regex of parseRequestBody: the URL starts
with https://github.com/ followed by a nonempty slash-free owner segment, a
slash, and at least one further non-slash character. -/
def githubUrlTest (s : String) : Bool :=
  match ghUrlTail s with
  | none => false
  | some rest =>
    let owner := rest.takeWhile (· ≠ '/')
    match owner, rest.drop owner.length with
    | [], _ => false
    | _ :: _, '/' :: tl => decide ((tl.takeWhile (· ≠ '/')).length > 0)
    | _ :: _, _ => false

/-- isRepositoryUrl from github-summarizer/route.ts: the anchored pattern
https://github.com/owner/repo with both segments nonempty and nothing
after the repo segment. -/
def isRepositoryUrl (s : String) : Bool :=
  match ghUrlTail s with
  | none => false
  | some rest =>
    let owner := rest.takeWhile (· ≠ '/')
    match owner, rest.drop owner.length with
    | [], _ => false
    | _ :: _, '/' :: tl => decide (tl.length > 0) && tl.all (· ≠ '/')
    | _ :: _, _ => false

/-- extractOwnerRepo from github-summarizer/route.ts: the first two
slash-free segments after the host. -/
def extractOwnerRepo (s : String) : Option (String × String) :=
  match ghUrlTail s with
  | none => none
  | some rest =>
    let owner := rest.takeWhile (· ≠ '/')
    match owner, rest.drop owner.length with
    | [], _ => none
    | _ :: _, '/' :: tl =>
      let repo := tl.takeWhile (· ≠ '/')
      if repo.length > 0 then some (String.mk owner, String.mk repo) else none
    | _ :: _, _ => none

/-- Repository-URL form of githubUrlToRaw: owner and repo from the URL,
branch and file path supplied. -/
def githubUrlToRawRepo (url branch filePath : String) : Option String :=
  match extractOwnerRepo url with
  | some (o, r) =>
    some ("https://raw.githubusercontent.com/" ++ o ++ "/" ++ r ++ "/" ++ branch ++ "/" ++ filePath)
  | none => none

/-- Match of the blob and raw file-URL patterns of githubUrlToRaw:
https://github.com/owner/repo/MARKER/branch/path with owner, repo and
branch nonempty and slash-free and path nonempty. -/
def matchSegmented (url marker : String) : Option (String × String × String × String) :=
  match ghUrlTail url with
  | none => none
  | some rest =>
    let owner := rest.takeWhile (· ≠ '/')
    match owner, rest.drop owner.length with
    | [], _ => none
    | _ :: _, '/' :: r1 =>
      let repo := r1.takeWhile (· ≠ '/')
      match repo, r1.drop repo.length with
      | [], _ => none
      | _ :: _, '/' :: r2 =>
        if (marker.toList ++ ['/']).isPrefixOf r2 then
          let r3 := r2.drop (marker.length + 1)
          let branch := r3.takeWhile (· ≠ '/')
          match branch, r3.drop branch.length with
          | [], _ => none
          | _ :: _, '/' :: path =>
            if path.isEmpty then none
            else some (String.mk owner, String.mk repo, String.mk branch, String.mk path)
          | _ :: _, _ => none
        else none
      | _ :: _, _ => none
    | _ :: _, _ => none

/-- File-URL form of githubUrlToRaw: a blob URL, else a raw URL, rewritten
to raw.githubusercontent.com; null for anything else. -/
def githubUrlToRawFile (url : String) : Option String :=
  match matchSegmented url "blob" with
  | some (o, r, b, p) =>
    some ("https://raw.githubusercontent.com/" ++ o ++ "/" ++ r ++ "/" ++ b ++ "/" ++ p)
  | none =>
    match matchSegmented url "raw" with
    | some (o, r, b, p) =>
      some ("https://raw.githubusercontent.com/" ++ o ++ "/" ++ r ++ "/" ++ b ++ "/" ++ p)
    | none => none

/-- External collaborators of the summarizer endpoint: the GitHub API
default-branch lookup (none when the request fails), HEAD probes of raw
URLs, GET of a raw URL (none when not ok), and the summarization chain
(none when it throws). -/
structure World where
  defaultBranch : Option String
  headOk : String → Bool
  getContent : String → Option String
  summarizeResult : Option Summary

/-- testBranchExists from github-summarizer/route.ts: HEAD-probe the
README.md raw URL of the candidate branch. -/
def testBranchExists (w : World) (githubUrl branch : String) : Bool :=
  match githubUrlToRawRepo githubUrl branch "README.md" with
  | none => false
  | some u => w.headOk u

/-- findRepositoryBranch from github-summarizer/route.ts: the default
branch from the GitHub API, else the first of main, master, develop that
probes ok, else main. -/
def findRepositoryBranch (w : World) (githubUrl : String) : String :=
  match w.defaultBranch with
  | some b => b
  | none =>
    match (["main", "master", "develop"].find? (fun b => testBranchExists w githubUrl b)) with
    | some b => b
    | none => "main"

/-- README filenames probed by findReadmeFile, in order. -/
def readmeCandidates : List String :=
  ["README.md", "README.txt", "README", "readme.md", "Readme.md"]

/-- findReadmeFile from github-summarizer/route.ts: the first candidate
whose raw URL probes ok, else the README.md raw URL anyway. -/
def findReadmeFile (w : World) (githubUrl branch : String) : Option String :=
  match readmeCandidates.findSome? (fun f =>
      match githubUrlToRawRepo githubUrl branch f with
      | some u => if w.headOk u then some u else none
      | none => none) with
  | some u => some u
  | none => githubUrlToRawRepo githubUrl branch "README.md"

/-- Request body of the summarizer endpoint: malformed JSON, or a parsed
object whose githubUrl field is a string or absent. -/
inductive ReqBody where
  | malformed
  | json (githubUrl : Option String)
  deriving Repr, DecidableEq

/-- parseRequestBody from github-summarizer/route.ts: malformed JSON is
400; a missing, empty-after-trim or pattern-failing githubUrl is 400;
otherwise the trimmed URL. -/
def parseRequestBody (b : ReqBody) : Except HResponse String :=
  match b with
  | .malformed =>
    .error { status := 400, error := some "Invalid request body. Expected JSON with githubUrl", valid := some false }
  | .json gu =>
    match gu with
    | none => .error { status := 400, error := some "Missing or invalid githubUrl parameter", valid := some false }
    | some u =>
      let t := strTrim u
      if t = "" ∨ ¬ githubUrlTest t then
        .error { status := 400, error := some "Missing or invalid githubUrl parameter", valid := some false }
      else .ok t

/-- validateApiKey from github-summarizer/route.ts: a single() lookup by
the key column; the PGRST116 no-row branch yields the 200 response with
valid false. -/
def svValidateApiKey (s : List ApiKeyRow) (key : String) : Except HResponse ApiKeyRow :=
  match findRowByKey s key with
  | none => .error { status := 200, valid := some false, message := some "Invalid API key" }
  | some row => .ok row

/-- The 401 response of validateRequestApiKey when no credential is
presented. -/
def respApiKeyRequired : HResponse :=
  { status := 401, error := some "API key is required", valid := some false,
    hint := some "Include API key in request header: Authorization: Bearer or X-API-Key" }

/-- Observable downstream actions of the summarizer endpoint. -/
inductive Effect where
  | dbKeyLookup (key : String)
  | dbUsageIncrement (keyId : Nat)
  | githubFetch (url : String)
  | summarizeCall
  deriving Repr, DecidableEq

/-- validateRequestApiKey from github-summarizer/route.ts: extract the
credential; a missing or empty credential is rejected with 401 before any
store access; otherwise look the key up. The effect list records the store
lookup. -/
def validateRequestApiKey (s : List ApiKeyRow) (h : ReqHeaders) :
    Except HResponse ApiKeyRow × List Effect :=
  match getApiKeyFromHeaders h with
  | none => (.error respApiKeyRequired, [])
  | some k =>
    if k = "" then (.error respApiKeyRequired, [])
    else (svValidateApiKey s k, [Effect.dbKeyLookup k])

/-- processGithubUrl from github-summarizer/route.ts: repository URLs go
through branch and README discovery, file URLs through the blob and raw
rewrites; a missing raw URL is 400. -/
def processGithubUrl (w : World) (githubUrl : String) : Except HResponse String :=
  if isRepositoryUrl githubUrl then
    match extractOwnerRepo githubUrl with
    | none =>
      .error { status := 400, error := some "Could not extract owner and repository from the URL.", valid := some false }
    | some _ =>
      match findReadmeFile w githubUrl (findRepositoryBranch w githubUrl) with
      | some u => .ok u
      | none =>
        .error { status := 400, error := some "Could not construct README.md URL for the repository. The repository might not have a README file.", valid := some false }
  else
    match githubUrlToRawFile githubUrl with
    | some u => .ok u
    | none =>
      .error { status := 400, error := some "Provided githubUrl is not a supported GitHub file URL (should be a blob or raw file URL).", valid := some false }

/-- POST of app/api/github-summarizer/route.ts: validate the credential,
parse the body, resolve the raw URL, fetch the content, summarize, and
build the response. Returns the response, the resulting api_keys table and
the downstream actions performed. The handler never writes to the table. -/
def summarizerPOST (w : World) (s : List ApiKeyRow) (h : ReqHeaders) (b : ReqBody) :
    HResponse × List ApiKeyRow × List Effect :=
  match validateRequestApiKey s h with
  | (.error e, effs) => (e, s, effs)
  | (.ok _row, effs) =>
    match parseRequestBody b with
    | .error e => (e, s, effs)
    | .ok githubUrl =>
      match processGithubUrl w githubUrl with
      | .error e => (e, s, effs)
      | .ok rawUrl =>
        match w.getContent rawUrl with
        | none =>
          ({ status := 502, valid := some false, error := some "Failed to fetch content from GitHub" },
            s, effs ++ [Effect.githubFetch rawUrl])
        | some _content =>
          match w.summarizeResult with
          | none =>
            ({ status := 502, summary := none, coolFacts := none },
              s, effs ++ [Effect.githubFetch rawUrl, Effect.summarizeCall])
          | some sum =>
            ({ status := 200, summary := some sum.summary, coolFacts := some sum.cool_facts },
              s, effs ++ [Effect.githubFetch rawUrl, Effect.summarizeCall])

/-! Concrete fixtures used by the witness theorems. -/

/-- Demo key row: a dev key whose usage has reached its limit of 2. -/
def demoRow : ApiKeyRow :=
  { id := 1, userId := some 10, name := "test", envType := "dev",
    key := "shadi-dev-K", usage := some 2, limit := some 2,
    createdAt := 100, updatedAt := 100 }

/-- Demo api_keys table holding only demoRow. -/
def demoStore : List ApiKeyRow := [demoRow]

/-- Demo external world where every GitHub request succeeds and the
summarization chain returns a fixed summary. -/
def demoWorld : World :=
  { defaultBranch := some "main", headOk := fun _ => true,
    getContent := fun _ => some "readme text",
    summarizeResult := some { summary := "a summary", cool_facts := ["f1", "f2"] } }

/-- C10 (theorem). The rate-limit helper checkRateLimit returns the
Invalid-API-key 401 error value exactly when no row matches the
credential; on a matching row it reports rate-limited exactly when the
limit is set and the usage counter, with null coalesced to 0, has reached
it — so a null limit is never rate-limited. -/
theorem checkRateLimit_spec (s : List ApiKeyRow) (k : String) :
    (checkRateLimit s k = .err "Invalid API key" 401 ↔ findRowByKey s k = none) ∧
    (∀ row, findRowByKey s k = some row →
      ((∃ u l kid, checkRateLimit s k = .ok true u l kid) ↔
        ∃ lim, row.limit = some lim ∧ lim ≤ row.usage.getD 0)) := by
  have hmain : ∀ row, findRowByKey s k = some row →
      checkRateLimit s k =
        .ok (match row.limit with
              | none => false
              | some lim => decide (row.usage.getD 0 ≥ lim))
          (row.usage.getD 0) row.limit row.id := by
    intro row hf
    simp only [checkRateLimit, hf]
    cases hl : row.limit <;> rfl
  constructor
  · constructor
    · intro h
      cases hf : findRowByKey s k with
      | none => rfl
      | some row =>
        rw [hmain row hf] at h
        simp at h
    · intro h
      simp only [checkRateLimit, h]
  · intro row hf
    constructor
    · rintro ⟨u, l, kid, h⟩
      rw [hmain row hf] at h
      cases hl : row.limit with
      | none => rw [hl] at h; simp at h
      | some lim =>
        rw [hl] at h
        simp only [RateLimitResult.ok.injEq] at h
        exact ⟨lim, rfl, by
          have := h.1
          simp only [ge_iff_le, decide_eq_true_eq] at this
          exact this⟩
    · rintro ⟨lim, hlim, hle⟩
      refine ⟨row.usage.getD 0, row.limit, row.id, ?_⟩
      rw [hmain row hf, hlim]
      simp [ge_iff_le, hle]

/-- C10 (witness). The checkRateLimit specification applied at the demo
store: the unknown credential nope yields the Invalid-API-key error, and
the demo row at its limit is reported rate-limited. -/
theorem checkRateLimit_spec_witness :
    checkRateLimit demoStore "nope" = .err "Invalid API key" 401 ∧
    (∃ u l kid, checkRateLimit demoStore "shadi-dev-K" = .ok true u l kid) :=
  ⟨(checkRateLimit_spec demoStore "nope").1.mpr (by decide),
   ((checkRateLimit_spec demoStore "shadi-dev-K").2 demoRow (by decide)).mpr
     ⟨2, by decide, by decide⟩⟩

/-- C5 (theorem). The validate-key endpoint answers a credential matching
no stored row with HTTP 200 and a well-formed valid-false body, never a
500. -/
theorem validateKey_unknown_ok (s : List ApiKeyRow) (k : String)
    (hk : k ≠ "") (h : findRowByKey s k = none) :
    validateKeyPOST s (some k) =
      { status := 200, valid := some false, message := some "Invalid API key" } := by
  have hred : validateKeyPOST s (some k) =
      (if k = "" then
        ({ status := 400, error := some "API key is required", valid := some false } : HResponse)
      else
        match findRowByKey s k with
        | none => { status := 200, valid := some false, message := some "Invalid API key" }
        | some row =>
          { status := 200, valid := some true, message := some "Valid API key", record := some row }) := rfl
  rw [hred, if_neg hk, h]

/-- C5 (witness). Validating the unknown credential does-not-exist against
the demo store yields the 200 valid-false response. -/
theorem validateKey_unknown_ok_witness :
    validateKeyPOST demoStore (some "does-not-exist") =
      { status := 200, valid := some false, message := some "Invalid API key" } :=
  validateKey_unknown_ok demoStore "does-not-exist" (by decide) (by decide)

/-- C4 (theorem). A summarizer request carrying neither an Authorization
header nor an X-API-Key header is answered 401 with the
API-key-is-required valid-false body, the api_keys table is untouched and
no downstream action at all is performed — the result is the same for
every request body, every store and every external world, and its effect
list is empty. -/
theorem summarizer_missing_key_rejected (w : World) (s : List ApiKeyRow)
    (h : ReqHeaders) (b : ReqBody)
    (ha : h.authorization = none) (hx : h.xApiKey = none) :
    summarizerPOST w s h b = (respApiKeyRequired, s, []) := by
  have hkey : getApiKeyFromHeaders h = none := by
    simp only [getApiKeyFromHeaders, xApiKeyOf, ha, hx]
  simp only [summarizerPOST, validateRequestApiKey, hkey]

/-- C4 (witness). The missing-credential rejection applied at the demo
store with an all-good external world and a well-formed body. -/
theorem summarizer_missing_key_rejected_witness :
    summarizerPOST demoWorld demoStore { authorization := none, xApiKey := none }
        (ReqBody.json (some "https://github.com/o/r")) =
      (respApiKeyRequired, demoStore, []) :=
  summarizer_missing_key_rejected demoWorld demoStore
    { authorization := none, xApiKey := none }
    (ReqBody.json (some "https://github.com/o/r")) rfl rfl

/-- C6 (theorem). Session-identity resolution is a total function that
answers every absence condition with none: a missing cookie header, a
session token whose decode throws (wrong secret) or returns nothing,
decoded claims without an email, and an email matching no user row each
yield none rather than an exception. -/
theorem getAuthenticatedUserId_absence (w : AuthWorld) (ch : Option String) :
    (ch = none → getAuthenticatedUserId w ch = none) ∧
    (∀ h t, ch = some h → sessionTokenOf h = some t → w.decode t = .threw →
      getAuthenticatedUserId w ch = none) ∧
    (∀ h t sub, ch = some h → sessionTokenOf h = some t → w.decode t = .token none sub →
      getAuthenticatedUserId w ch = none) ∧
    (∀ h t e sub, ch = some h → sessionTokenOf h = some t →
      w.decode t = .token (some e) sub → e ≠ "" → w.userByEmail e = none →
      getAuthenticatedUserId w ch = none) := by
  refine ⟨?_, ?_, ?_, ?_⟩
  · rintro rfl
    rfl
  · rintro h t rfl hst hdec
    simp only [getAuthenticatedUserId, Option.getD_some]
    split
    · rfl
    split
    · rfl
    split
    · rfl
    simp only [hst, hdec]
  · rintro h t sub rfl hst hdec
    simp only [getAuthenticatedUserId, Option.getD_some]
    split
    · rfl
    split
    · rfl
    split
    · rfl
    simp only [hst, hdec]
  · rintro h t e sub rfl hst hdec hne huser
    simp only [getAuthenticatedUserId, Option.getD_some]
    split
    · rfl
    split
    · rfl
    split
    · rfl
    simp only [hst, hdec, if_neg hne, huser]

/-- Demo identity world whose token decoder always throws, standing for a
session cookie signed with a different secret than configured. -/
def demoAuthWorld : AuthWorld :=
  { secretAvailable := true, decode := fun _ => .threw, userByEmail := fun _ => none }

/-- C6 (witness). The absence specification applied at the demo identity
world: no cookie header yields none, and a present session token whose
decode throws also yields none. -/
theorem getAuthenticatedUserId_absence_witness :
    getAuthenticatedUserId demoAuthWorld none = none ∧
    getAuthenticatedUserId demoAuthWorld (some "next-auth.session-token=tok123") = none :=
  ⟨(getAuthenticatedUserId_absence demoAuthWorld none).1 rfl,
   (getAuthenticatedUserId_absence demoAuthWorld
       (some "next-auth.session-token=tok123")).2.1
     "next-auth.session-token=tok123" "tok123" rfl (by decide) rfl⟩

/-- C3 (theorem). When every row carrying the target key id is owned by
user U1, a well-formed update and a delete of that key requested as a
different user U2 both answer the conflated not-found-or-forbidden 404,
never success, and leave the stored table exactly unchanged. -/
theorem ownership_isolation (s : List ApiKeyRow) (u1 u2 keyId : Nat)
    (name ty key : String) (now : Nat)
    (hne : u1 ≠ u2)
    (hown : ∀ r ∈ s, r.id = keyId → r.userId = some u1)
    (hname : name ≠ "") (hty : ty = "dev" ∨ ty = "prod") (hkey : key ≠ "") :
    putApiKey s (some u2) keyId name ty key now =
      ({ status := 404,
         error := some "API key not found or you do not have permission to update it" }, s) ∧
    deleteApiKey s (some u2) keyId =
      ({ status := 404,
         error := some "API key not found or you do not have permission to delete it" }, s) := by
  have hfilter : s.filter (fun r => decide (r.id = keyId ∧ r.userId = some u2)) = [] := by
    rw [List.filter_eq_nil_iff]
    intro r hr
    simp only [decide_eq_true_eq, not_and]
    intro hid huid
    exact hne (by
      have := hown r hr hid
      rw [this] at huid
      exact Option.some.inj huid)
  have htyne : ty ≠ "" := by
    rcases hty with h | h <;> simp [h]
  have htyok : ¬ (ty ≠ "dev" ∧ ty ≠ "prod") := by
    rcases hty with h | h <;> simp [h]
  constructor
  · simp only [putApiKey]
    rw [if_neg (by simp [hname, htyne, hkey]), if_neg htyok, hfilter]
  · simp only [deleteApiKey]
    rw [hfilter]

/-- Second demo row, owned by user 10 like demoRow but newer. -/
def demoRow2 : ApiKeyRow :=
  { id := 2, userId := some 10, name := "newer", envType := "prod",
    key := "shadi-prod-L", usage := some 0, limit := none,
    createdAt := 200, updatedAt := 200 }

/-- Demo table with two keys of user 10, older first. -/
def demoStore2 : List ApiKeyRow := [demoRow, demoRow2]

/-- C3 (witness). User 11 updating or deleting key 1, which belongs to
user 10, gets 404 and the two-row demo table is unchanged. -/
theorem ownership_isolation_witness :
    putApiKey demoStore2 (some 11) 1 "n" "dev" "shadi-dev-X" 7 =
      ({ status := 404,
         error := some "API key not found or you do not have permission to update it" }, demoStore2) ∧
    deleteApiKey demoStore2 (some 11) 1 =
      ({ status := 404,
         error := some "API key not found or you do not have permission to delete it" }, demoStore2) :=
  ownership_isolation demoStore2 10 11 1 "n" "dev" "shadi-dev-X" 7
    (by decide) (by decide) (by decide) (Or.inl rfl) (by decide)

/-- C8 (theorem). Two listing calls for the same user against the same
table return the same list; that list is ordered newest created_at first,
and it holds exactly the rows of the table owned by that user. -/
theorem listing_idempotent_sorted (s : List ApiKeyRow) (uid : Nat)
    (l1 l2 : List ApiKeyRow)
    (h1 : listKeysGET s (some uid) = .ok l1)
    (h2 : listKeysGET s (some uid) = .ok l2) :
    l1 = l2 ∧ l1.Sorted newerFirst ∧ (∀ r, r ∈ l1 ↔ r ∈ s ∧ r.userId = some uid) := by
  have hl1 : l1 = (s.filter (fun r => r.userId = some uid)).insertionSort newerFirst := by
    simpa only [listKeysGET, Except.ok.injEq, eq_comm] using h1
  have hl2 : l2 = (s.filter (fun r => r.userId = some uid)).insertionSort newerFirst := by
    simpa only [listKeysGET, Except.ok.injEq, eq_comm] using h2
  subst hl1
  refine ⟨hl2.symm, List.sorted_insertionSort newerFirst _, fun r => ?_⟩
  rw [(List.perm_insertionSort newerFirst _).mem_iff, List.mem_filter]
  simp

/-- C8 (witness). Applied at the two-row demo table of user 10: the
listing is the newer key 2 first then key 1, sorted newest-first, twice
the same. -/
theorem listing_idempotent_sorted_witness :
    ([demoRow2, demoRow] : List ApiKeyRow).Sorted newerFirst ∧
    (∀ r, r ∈ ([demoRow2, demoRow] : List ApiKeyRow) ↔ r ∈ demoStore2 ∧ r.userId = some 10) :=
  (listing_idempotent_sorted demoStore2 10 [demoRow2, demoRow] [demoRow2, demoRow]
    (by rfl) (by rfl)).2

/-- Character data of a concatenation of strings. -/
theorem toList_append (a b : String) : (a ++ b).toList = a.toList ++ b.toList :=
  String.data_append a b

/-- A list is a prefix of itself followed by anything, in the Boolean
sense used by strStartsWith. -/
theorem isPrefixOf_append (l t : List Char) : l.isPrefixOf (l ++ t) = true := by
  induction l with
  | nil => simp [List.isPrefixOf]
  | cons x xs ih => simp [List.isPrefixOf, ih]

/-- Every character drawn from the credential alphabet is alphanumeric. -/
theorem keyChars_getD_alnum (n : Nat) : (keyChars.getD (n % keyChars.length) 'A').isAlphanum = true := by
  have hlt : n % keyChars.length < keyChars.length := Nat.mod_lt _ (by decide)
  rw [List.getD_eq_getElem keyChars 'A' hlt]
  have hall : ∀ c ∈ keyChars, c.isAlphanum = true := by decide
  exact hall _ (List.getElem_mem hlt)

/-- Character data of a generated dev credential: the shadi-dev- prefix
followed by the 24 drawn characters. -/
theorem generate_dev_toList (rnd : Nat → Nat) :
    (generateRandomKeyValue "dev" rnd).toList =
      "shadi-dev-".toList ++
        (List.range 24).map (fun i => keyChars.getD (rnd i % keyChars.length) 'A') := by
  simp only [generateRandomKeyValue, if_pos rfl]
  rw [toList_append]
  rfl

/-- C9 (theorem). Creating a key with type dev and no limit succeeds with
201 and a stored record whose usage counter is 0 and whose limit is null;
the generated credential starts with the shadi-dev- environment prefix
followed by exactly 24 alphanumeric characters (and a prod credential
starts with shadi-prod-). -/
theorem create_dev_key_spec (s : List ApiKeyRow) (name : String) (rnd : Nat → Nat)
    (newId now : Nat) (hname : name ≠ "")
    (hfresh : ∀ r ∈ s, r.key ≠ generateRandomKeyValue "dev" rnd) :
    (createKeyPOST s name "dev" (generateRandomKeyValue "dev" rnd) none newId now).1.status = 201 ∧
    (createKeyPOST s name "dev" (generateRandomKeyValue "dev" rnd) none newId now).1.record =
      some { id := newId, userId := none, name := name, envType := "dev",
             key := generateRandomKeyValue "dev" rnd, usage := some 0, limit := none,
             createdAt := now, updatedAt := now } ∧
    strStartsWith (generateRandomKeyValue "dev" rnd) "shadi-dev-" = true ∧
    (strDropChars (generateRandomKeyValue "dev" rnd) 10).toList.length = 24 ∧
    (strDropChars (generateRandomKeyValue "dev" rnd) 10).toList.all Char.isAlphanum = true ∧
    strStartsWith (generateRandomKeyValue "prod" rnd) "shadi-prod-" = true := by
  have hg := generate_dev_toList rnd
  have hgne : generateRandomKeyValue "dev" rnd ≠ "" := by
    intro h
    rw [h] at hg
    have hlen := congrArg List.length hg
    simp at hlen
  have hres : createKeyPOST s name "dev" (generateRandomKeyValue "dev" rnd) none newId now =
      ({ status := 201, record := some
          { id := newId, userId := none, name := name, envType := "dev",
            key := generateRandomKeyValue "dev" rnd, usage := some 0, limit := none,
            createdAt := now, updatedAt := now } },
        s ++ [(⟨newId, none, name, "dev", generateRandomKeyValue "dev" rnd,
                some 0, none, now, now⟩ : ApiKeyRow)]) := by
    simp only [createKeyPOST]
    rw [if_neg (by simp [hname, hgne]), if_neg (by simp),
      if_neg (by
        simp only [List.any_eq_true, decide_eq_true_eq, not_exists, not_and]
        intro r hr
        exact hfresh r hr)]
  refine ⟨by rw [hres], by rw [hres], ?_, ?_, ?_, ?_⟩
  · simp only [strStartsWith, hg]
    exact isPrefixOf_append _ _
  · simp only [strDropChars, hg]
    rw [show (10 : Nat) = ("shadi-dev-".toList).length from rfl, List.drop_left]
    simp
  · simp only [strDropChars, hg]
    rw [show (10 : Nat) = ("shadi-dev-".toList).length from rfl, List.drop_left]
    simp only [String.toList, List.all_eq_true, List.mem_map, List.mem_range]
    rintro c ⟨i, _, rfl⟩
    exact keyChars_getD_alnum (rnd i)
  · simp only [strStartsWith, generateRandomKeyValue, if_neg (by decide : ¬ ("prod" = "dev"))]
    rw [toList_append]
    exact isPrefixOf_append _ _

/-- C9 (witness). Creating the dev key test on the empty table with the
all-zero draw: 201 with usage 0, a shadi-dev- credential of 24
alphanumeric suffix characters. -/
theorem create_dev_key_spec_witness :
    (createKeyPOST [] "test" "dev" (generateRandomKeyValue "dev" (fun _ => 0)) none 1 5).1.status = 201 ∧
    (createKeyPOST [] "test" "dev" (generateRandomKeyValue "dev" (fun _ => 0)) none 1 5).1.record =
      some { id := 1, userId := none, name := "test", envType := "dev",
             key := generateRandomKeyValue "dev" (fun _ => 0), usage := some 0, limit := none,
             createdAt := 5, updatedAt := 5 } ∧
    strStartsWith (generateRandomKeyValue "dev" (fun _ => 0)) "shadi-dev-" = true ∧
    (strDropChars (generateRandomKeyValue "dev" (fun _ => 0)) 10).toList.length = 24 ∧
    (strDropChars (generateRandomKeyValue "dev" (fun _ => 0)) 10).toList.all Char.isAlphanum = true ∧
    strStartsWith (generateRandomKeyValue "prod" (fun _ => 0)) "shadi-prod-" = true :=
  create_dev_key_spec [] "test" (fun _ => 0) 1 5 (by decide) (by simp)

/-- Nonemptiness of every generated credential. -/
theorem generate_ne_empty (ty : String) (rnd : Nat → Nat) :
    generateRandomKeyValue ty rnd ≠ "" := by
  intro h
  have h2 := congrArg String.toList h
  simp only [generateRandomKeyValue] at h2
  by_cases hd : ty = "dev"
  · rw [if_pos hd, toList_append] at h2
    have hlen := congrArg List.length h2
    simp at hlen
  · rw [if_neg hd, toList_append] at h2
    have hlen := congrArg List.length h2
    simp at hlen

/-- Credential generated by the all-zero draw for a dev key. -/
def collKey : String := generateRandomKeyValue "dev" (fun _ => 0)

/-- Table already holding a row with the credential the next dev create
will draw. -/
def collStore : List ApiKeyRow :=
  [{ id := 1, userId := some 10, name := "old", envType := "dev", key := collKey,
     usage := some 0, limit := none, createdAt := 1, updatedAt := 1 }]

/-- C7 (counterexample). The dashboard create flow, on a table where its
one generated credential collides, surfaces the duplicate-credential 409
error immediately and leaves the table unchanged: no credential is
regenerated, no retry happens, and no key is created, although a retry
with a fresh draw would have succeeded. -/
theorem create_collision_no_retry_counterexample :
    clientCreateApiKey collStore "test" "dev" false 1000 (fun _ => 0) 2 5 =
      (.failed "An API key with this value already exists", collStore) := by decide

/-- C7 (theorem, amended). Whenever the generated credential collides with
a stored row, the create flow returns the duplicate-credential conflict
error of the 409 response to the caller at once, with the table unchanged;
there is no regeneration and no second attempt. -/
theorem create_collision_surfaces_conflict (s : List ApiKeyRow) (name ty : String)
    (limitMonthlyUsage : Bool) (limitVal : Nat) (rnd : Nat → Nat) (newId now : Nat)
    (hname : name ≠ "") (hty : ty = "dev" ∨ ty = "prod")
    (hcoll : ∃ r ∈ s, r.key = generateRandomKeyValue ty rnd) :
    clientCreateApiKey s name ty limitMonthlyUsage limitVal rnd newId now =
      (.failed "An API key with this value already exists", s) := by
  have htyne : ty ≠ "" := by
    rcases hty with h | h <;> simp [h]
  have htyok : ¬ (ty ≠ "dev" ∧ ty ≠ "prod") := by
    rcases hty with h | h <;> simp [h]
  have hany : s.any (fun r => r.key = generateRandomKeyValue ty rnd) = true := by
    rcases hcoll with ⟨r, hr, hkey⟩
    exact List.any_eq_true.mpr ⟨r, hr, by simp [hkey]⟩
  have hpost : createKeyPOST s name ty (generateRandomKeyValue ty rnd)
      (if limitMonthlyUsage then some limitVal else none) newId now =
      ({ status := 409, error := some "An API key with this value already exists" }, s) := by
    simp only [createKeyPOST]
    rw [if_neg (by simp [hname, htyne, generate_ne_empty ty rnd]), if_neg htyok, if_pos hany]
  simp only [clientCreateApiKey, hpost]
  rw [if_neg (by decide)]
  rfl

/-- Credential generated by the all-zero draw for a prod key. -/
def collKeyP : String := generateRandomKeyValue "prod" (fun _ => 0)

/-- Table already holding a row with the credential the next prod create
will draw. -/
def collStoreP : List ApiKeyRow :=
  [{ id := 3, userId := some 10, name := "old", envType := "prod", key := collKeyP,
     usage := some 0, limit := none, createdAt := 1, updatedAt := 1 }]

/-- C7 (witness). The amended collision behavior applied at the prod demo
collision table. -/
theorem create_collision_surfaces_conflict_witness :
    clientCreateApiKey collStoreP "test" "prod" false 1000 (fun _ => 0) 4 5 =
      (.failed "An API key with this value already exists", collStoreP) :=
  create_collision_surfaces_conflict collStoreP "test" "prod" false 1000 (fun _ => 0) 4 5
    (by decide) (Or.inr rfl)
    ⟨{ id := 3, userId := some 10, name := "old", envType := "prod", key := collKeyP,
       usage := some 0, limit := none, createdAt := 1, updatedAt := 1 },
     by simp [collStoreP], rfl⟩

/-- C1 (theorem). Failing input for quota enforcement at the summarizer:
the demo key has limit 2 and usage 2, and checkRateLimit itself reports it
rate-limited, yet a summarizer request bearing that credential is
authorized — the endpoint performs the GitHub fetch and the summarization
call and answers 200 — and the usage counter is left at 2 (the endpoint
never consults the limit and never meters). -/
theorem quota_not_enforced_at_summarizer :
    checkRateLimit demoStore "shadi-dev-K" = .ok true 2 (some 2) 1 ∧
    summarizerPOST demoWorld demoStore
        { authorization := some "Bearer shadi-dev-K", xApiKey := none }
        (ReqBody.json (some "https://github.com/o/r/blob/main/README.md")) =
      ({ status := 200, summary := some "a summary", coolFacts := some ["f1", "f2"] },
        demoStore,
        [Effect.dbKeyLookup "shadi-dev-K",
         Effect.githubFetch "https://raw.githubusercontent.com/o/r/main/README.md",
         Effect.summarizeCall]) := by decide

/-- C2 (theorem). The summarizer endpoint never increments any usage
counter: for every external world, table, header set and body, the
resulting table is exactly the input table and no usage-increment action
appears among the performed effects — so an authorized request does not
increase the usage counter by 1 as specified. -/
theorem summarizer_never_increments_usage (w : World) (s : List ApiKeyRow)
    (h : ReqHeaders) (b : ReqBody) :
    (summarizerPOST w s h b).2.1 = s ∧
    ∀ kid, Effect.dbUsageIncrement kid ∉ (summarizerPOST w s h b).2.2 := by
  have heffs : ∀ kid, Effect.dbUsageIncrement kid ∉ (validateRequestApiKey s h).2 := by
    intro kid
    unfold validateRequestApiKey
    cases hk : getApiKeyFromHeaders h with
    | none => simp
    | some k =>
      by_cases hke : k = ""
      · simp [hke]
      · simp [hke]
  rcases hv : validateRequestApiKey s h with ⟨vres, veffs⟩
  have heff2 : ∀ kid, Effect.dbUsageIncrement kid ∉ veffs := by
    intro kid
    have := heffs kid
    rw [hv] at this
    exact this
  cases vres with
  | error e =>
    simp only [summarizerPOST, hv]
    exact ⟨by trivial, fun kid => by simp [List.mem_append, heff2 kid]⟩
  | ok row =>
    cases hp : parseRequestBody b with
    | error e =>
      simp only [summarizerPOST, hv, hp]
      exact ⟨by trivial, fun kid => by simp [List.mem_append, heff2 kid]⟩
    | ok url =>
      cases hu : processGithubUrl w url with
      | error e =>
        simp only [summarizerPOST, hv, hp, hu]
        exact ⟨by trivial, fun kid => by simp [List.mem_append, heff2 kid]⟩
      | ok rawUrl =>
        cases hc : w.getContent rawUrl with
        | none =>
          simp only [summarizerPOST, hv, hp, hu, hc]
          exact ⟨by trivial, fun kid => by simp [List.mem_append, heff2 kid]⟩
        | some content =>
          cases hs : w.summarizeResult with
          | none =>
            simp only [summarizerPOST, hv, hp, hu, hc, hs]
            exact ⟨by trivial, fun kid => by simp [List.mem_append, heff2 kid]⟩
          | some sum =>
            simp only [summarizerPOST, hv, hp, hu, hc, hs]
            exact ⟨by trivial, fun kid => by simp [List.mem_append, heff2 kid]⟩

end Shadi
